import Mathlib

/-!
Verification of the font-inspection browser extension core.

The development shallowly embeds the JavaScript modules of the repository:

* `FontDetector` — pure formatting helpers from `src/fontDetector.js`
  (`formatWeight`, `cleanFontFamily`, `formatFontInfo`, `formatFontInfoPlain`,
  `escapeHtml`, `hasTextContent`);
* `Tooltip` — the viewport-aware positioning computation from
  `src/tooltip.js` (`position`);
* `Clipboard` — the copy routine with its selection-based fallback from
  `src/clipboard.js`, with the throwing primitives modelled in an
  exception monad;
* `Coordinator` — the content-script state machine
  (`handleMouseOver`, `handleMouseOut`, `handleMouseMove`, `handleKeyDown`,
  `enable`, `disable`, `toggle`, `saveState`) over the state
  `{isEnabled, currentElement}` together with the tooltip visibility flag.

JavaScript strings are modelled by `String`, numbers occurring in the
positioning arithmetic by `Int`, DOM element identities by `Nat`, and the
page's static facts (which element is the tooltip, which elements have text,
containment) by a `Dom` record of boolean-valued functions.
-/

namespace FontDetector

/-- Font properties record produced by `getFontProperties`
(`src/fontDetector.js`): each field is a computed-style string. -/
structure FontProperties where
  fontFamily : String
  fontSize : String
  fontWeight : String
  fontStyle : String
  lineHeight : String
  letterSpacing : String
  color : String
  deriving DecidableEq, Repr

/-- A value the lookup `weightNames[weight] || weight` can evaluate to:
a string (an own label of the table, or the raw `weight` fallback), or a
member inherited from `Object.prototype` — `weightNames` is an ordinary
object literal, so a property access on it consults the prototype chain
before the `||` fallback, and every `Object.prototype` member is truthy
(functions, and the `__proto__` accessor whose value is `Object.prototype`
itself). -/
inductive JsValue where
  | str (s : String)
  | protoMember (key : String)
  deriving DecidableEq, Repr

/-- The property names a bare object-literal lookup finds inherited on the
prototype chain: the members of `Object.prototype`. -/
def objectPrototypeKeys : List String :=
  ["constructor", "hasOwnProperty", "isPrototypeOf", "propertyIsEnumerable",
   "toLocaleString", "toString", "valueOf", "__defineGetter__",
   "__defineSetter__", "__lookupGetter__", "__lookupSetter__", "__proto__"]

/-- `formatWeight` from `src/fontDetector.js`:
`weightNames[weight] || weight`. An own key of the nine-entry table yields
its label; failing that, the prototype chain is consulted, so a key naming
an `Object.prototype` member yields that truthy inherited member and the
`||` fallback is not taken; only otherwise is the lookup `undefined`
(falsy) and the raw `weight` string returned. -/
def formatWeight (weight : String) : JsValue :=
  if weight = "100" then .str "100 (Thin)"
  else if weight = "200" then .str "200 (Extra Light)"
  else if weight = "300" then .str "300 (Light)"
  else if weight = "400" then .str "400 (Regular)"
  else if weight = "500" then .str "500 (Medium)"
  else if weight = "600" then .str "600 (Semi Bold)"
  else if weight = "700" then .str "700 (Bold)"
  else if weight = "800" then .str "800 (Extra Bold)"
  else if weight = "900" then .str "900 (Black)"
  else if weight ∈ objectPrototypeKeys then .protoMember weight
  else .str weight

/-- The keys of the `weightNames` table. -/
def weightKeys : List String :=
  ["100", "200", "300", "400", "500", "600", "700", "800", "900"]

/-- The string a template literal interpolation (`${...}`) produces from a
value: a string interpolates as itself; the inherited `Object.prototype`
members print as native functions,
`function <name>() \x7b [native code] \x7d` (the member at `constructor` is
the `Object` constructor function), and the value of the `__proto__`
accessor, `Object.prototype` itself, prints as `[object Object]`. -/
def jsValueToString : JsValue → String
  | .str s => s
  | .protoMember key =>
    if key = "__proto__" then "[object Object]"
    else "function " ++ (if key = "constructor" then "Object" else key) ++
      "() \x7b [native code] \x7d"

/-- A quote character, as matched by the regular expression `/["']/g`. -/
def isQuoteChar (c : Char) : Bool :=
  c = '"' || c = '\''

/-- JavaScript `s.split(',')[0]`: the characters before the first comma
(the whole string when no comma occurs). -/
def firstSplitField (s : String) : List Char :=
  s.data.takeWhile fun c => c ≠ ','

/-- JavaScript `trim()`: drop whitespace from both ends. -/
def jsTrim (l : List Char) : List Char :=
  ((l.dropWhile Char.isWhitespace).reverse.dropWhile Char.isWhitespace).reverse

/-- `cleanFontFamily` from `src/fontDetector.js`:
`fontFamily.split(',')[0].trim().replace(/["']/g, '')` — the first
comma-separated entry, whitespace-trimmed, with every `"` and `'`
character removed (the regex is global, so quotes are removed wherever
they occur, not only at the ends). -/
def cleanFontFamily (fontFamily : String) : String :=
  let primaryFont := jsTrim (firstSplitField fontFamily)
  String.mk (primaryFont.filter fun c => !(isQuoteChar c))

/-- The spec's reading of `cleanFamily`: the first comma-separated entry with
surrounding whitespace and then surrounding quote characters stripped
(interior quote characters untouched). -/
def cleanFamilySpec (fontFamily : String) : String :=
  let primaryFont := jsTrim (firstSplitField fontFamily)
  String.mk
    (((primaryFont.dropWhile fun c => isQuoteChar c).reverse.dropWhile
        fun c => isQuoteChar c).reverse)

/-- One character's image under the HTML text-node serialisation that
`escapeHtml` performs via `div.textContent = text; div.innerHTML`:
`&`, `<` and `>` become entities, everything else is kept. -/
def escC (c : Char) : List Char :=
  if c = '&' then ['&', 'a', 'm', 'p', ';']
  else if c = '<' then ['&', 'l', 't', ';']
  else if c = '>' then ['&', 'g', 't', ';']
  else [c]

/-- `escapeHtml` character by character. -/
def escapeChars : List Char → List Char
  | [] => []
  | c :: r => escC c ++ escapeChars r

/-- `escapeHtml` from `src/fontDetector.js`. -/
def escapeHtml (text : String) : String :=
  String.mk (escapeChars text.data)

/-- `formatColor` from `src/fontDetector.js`: a colour swatch span (with the
colour interpolated into its `style` attribute) followed by the colour
text. -/
def formatColor (color : String) : String :=
  "<span class=\"fd-color-swatch\" style=\"background-color: " ++ color ++
    "\"></span>" ++ color

/-- The `rows` array of `formatFontInfo`. -/
def richRows (p : FontProperties) : List (String × String) :=
  [("Size", p.fontSize),
   ("Weight", jsValueToString (formatWeight p.fontWeight)),
   ("Style", p.fontStyle),
   ("Line Height", p.lineHeight),
   ("Spacing", p.letterSpacing),
   ("Color", formatColor p.color)]

/-- The per-row template of `formatFontInfo`'s `rowsHtml`. -/
def rowHtml (row : String × String) : String :=
  "<div class=\"fd-row\"><span class=\"fd-label\">" ++ row.1 ++
    "</span><span class=\"fd-value\">" ++ row.2 ++ "</span></div>"

/-- `formatFontInfo` from `src/fontDetector.js`: the rich HTML string, with
only the header's font name passed through `escapeHtml`. -/
def formatFontInfo (p : FontProperties) : String :=
  "\n      <div class=\"fd-header\">" ++ escapeHtml (cleanFontFamily p.fontFamily) ++
    "</div>\n      <div class=\"fd-properties\">" ++
    String.join ((richRows p).map rowHtml) ++ "</div>\n    "

/-- The `lines` array of `formatFontInfoPlain`. -/
def plainLines (p : FontProperties) : List String :=
  ["Font: " ++ cleanFontFamily p.fontFamily,
   "Size: " ++ p.fontSize,
   "Weight: " ++ jsValueToString (formatWeight p.fontWeight),
   "Style: " ++ p.fontStyle,
   "Line Height: " ++ p.lineHeight,
   "Letter Spacing: " ++ p.letterSpacing,
   "Color: " ++ p.color]

/-- `formatFontInfoPlain` from `src/fontDetector.js`. -/
def formatFontInfoPlain (p : FontProperties) : String :=
  String.intercalate "\n" (plainLines p)

/-- Tag stripper of an HTML fragment: the flag says whether the scan is
inside a `<...>` tag; text outside tags is kept. -/
def stripTags : Bool → List Char → List Char
  | _, [] => []
  | true, c :: r => if c = '>' then stripTags false r else stripTags true r
  | false, c :: r => if c = '<' then stripTags true r else c :: stripTags false r

/-- Final inside-a-tag flag after scanning a fragment. -/
def stripState : Bool → List Char → Bool
  | b, [] => b
  | true, c :: r => if c = '>' then stripState false r else stripState true r
  | false, c :: r => if c = '<' then stripState true r else stripState false r

/-- The markup skeleton of an HTML fragment: the subsequence of characters
that lie inside `<...>` tags, with the delimiters. Two fragments with the
same skeleton carry exactly the same markup. -/
def tagStream : Bool → List Char → List Char
  | _, [] => []
  | true, c :: r => if c = '>' then '>' :: tagStream false r else c :: tagStream true r
  | false, c :: r => if c = '<' then '<' :: tagStream true r else tagStream false r

/-- Decoder of the three entities `escapeHtml` produces. -/
def decodeEntities : List Char → List Char
  | [] => []
  | '&' :: 'a' :: 'm' :: 'p' :: ';' :: r => '&' :: decodeEntities r
  | '&' :: 'l' :: 't' :: ';' :: r => '<' :: decodeEntities r
  | '&' :: 'g' :: 't' :: ';' :: r => '>' :: decodeEntities r
  | c :: r => c :: decodeEntities r

/-- The markup-free textual content of an HTML fragment: tags dropped,
entities decoded. -/
def textContentOf (s : String) : String :=
  String.mk (decodeEntities (stripTags false s.data))

/-- A computed-style value as the platform's style engine produces them
(lengths, keywords, `rgb(...)` colours): free of the HTML
metacharacters `<`, `>` and `&`. -/
def plainStyleValue (s : String) : Prop :=
  ∀ c ∈ s.data, c ≠ '<' ∧ c ≠ '>' ∧ c ≠ '&'

instance : DecidablePred plainStyleValue := fun s =>
  decidable_of_iff (∀ c ∈ s.data, c ≠ '<' ∧ c ≠ '>' ∧ c ≠ '&') Iff.rfl

/-- The textual content of each field of the rich output, header first,
then the six row value cells of `richRows`. -/
def richFieldTexts (p : FontProperties) : List String :=
  textContentOf (escapeHtml (cleanFontFamily p.fontFamily)) ::
    (richRows p).map fun row => textContentOf row.2

/-- The field values of the plain output, in the order of `plainLines`. -/
def plainFieldValues (p : FontProperties) : List String :=
  [cleanFontFamily p.fontFamily, p.fontSize,
   jsValueToString (formatWeight p.fontWeight),
   p.fontStyle, p.lineHeight, p.letterSpacing, p.color]

/-- DOM node model for `hasTextContent`: a direct child of an element is a
text node (with its character data), an element node (with its own
children), or some other node kind (comment, etc.). -/
inductive DomNode where
  | text (content : String)
  | element (children : List DomNode)
  | other

/-- `childNodes` of a node: only element nodes have children in this model. -/
def DomNode.childNodes : DomNode → List DomNode
  | .element cs => cs
  | _ => []

/-- The per-node test of the loop body of `hasTextContent`:
`node.nodeType === Node.TEXT_NODE && node.textContent.trim().length > 0`. -/
def isNonemptyTextNode : DomNode → Bool
  | .text s => decide (0 < s.trim.length)
  | _ => false

/-- `hasTextContent` from `src/fontDetector.js`: iterates the element's
direct children and returns true on the first non-whitespace text node. -/
def hasTextContent (el : DomNode) : Bool :=
  el.childNodes.any isNonemptyTextNode

end FontDetector

namespace Tooltip

/-- The positioning computation of `position` in `src/tooltip.js`,
with `OFFSET_X = OFFSET_Y = 15`: candidate = cursor + offset, flip when the
panel would cross the right/bottom viewport edge, then clamp both
coordinates to a minimum of 5. Returns `(left, top)`. -/
def position (viewportWidth viewportHeight tooltipWidth tooltipHeight x y : Int) :
    Int × Int :=
  let left := x + 15
  let top := y + 15
  let left := if left + tooltipWidth > viewportWidth then x - tooltipWidth - 15 else left
  let top := if top + tooltipHeight > viewportHeight then y - tooltipHeight - 15 else top
  (max 5 left, max 5 top)

end Tooltip

namespace FontDetector

/-- C3 counterexample: `"constructor"`, `"toString"` and `"__proto__"` are
outside the nine-key table, yet `formatWeight` does not return them
unchanged: the object lookup `weightNames[weight]` finds the truthy members
inherited from `Object.prototype`, so `|| weight` is not taken. -/
theorem formatWeight_prototype_counterexample :
    formatWeight "constructor" = JsValue.protoMember "constructor" ∧
    formatWeight "constructor" ≠ JsValue.str "constructor" ∧
    formatWeight "toString" = JsValue.protoMember "toString" ∧
    formatWeight "toString" ≠ JsValue.str "toString" ∧
    formatWeight "__proto__" = JsValue.protoMember "__proto__" ∧
    formatWeight "__proto__" ≠ JsValue.str "__proto__" := by
  decide

/-- C3 amended: for each of the nine standard numeric weight strings,
`formatWeight` returns the labelled form from the fixed table; for each of
the twelve `Object.prototype` member names it returns the inherited truthy
member (not the input); and for every string outside both sets it returns
its input unchanged. -/
theorem formatWeight_table_proto_and_id :
    (∀ w ∈ weightKeys, formatWeight w = JsValue.str
        (w ++ " (" ++ (if w = "100" then "Thin" else if w = "200" then "Extra Light"
          else if w = "300" then "Light" else if w = "400" then "Regular"
          else if w = "500" then "Medium" else if w = "600" then "Semi Bold"
          else if w = "700" then "Bold" else if w = "800" then "Extra Bold"
          else "Black") ++ ")")) ∧
    (∀ w ∈ objectPrototypeKeys, formatWeight w = JsValue.protoMember w) ∧
    (∀ w : String, w ∉ weightKeys → w ∉ objectPrototypeKeys →
        formatWeight w = JsValue.str w) := by
  refine ⟨?_, ?_, ?_⟩
  · intro w hw
    fin_cases hw <;> rfl
  · intro w hw
    fin_cases hw <;> rfl
  · intro w hw hp
    simp only [weightKeys, List.mem_cons, List.not_mem_nil, or_false, not_or] at hw
    obtain ⟨h1, h2, h3, h4, h5, h6, h7, h8, h9⟩ := hw
    simp [formatWeight, h1, h2, h3, h4, h5, h6, h7, h8, h9, hp]

/-- Witness for C3's amended theorem at concrete inputs: "400" is labelled,
"hasOwnProperty" hits the prototype chain, and "bold" (in neither set) is
passed through unchanged. -/
theorem formatWeight_table_proto_and_id_witness :
    formatWeight "400" = JsValue.str "400 (Regular)" ∧
    formatWeight "hasOwnProperty" = JsValue.protoMember "hasOwnProperty" ∧
    formatWeight "bold" = JsValue.str "bold" :=
  ⟨formatWeight_table_proto_and_id.1 "400" (by decide),
   formatWeight_table_proto_and_id.2.1 "hasOwnProperty" (by decide),
   formatWeight_table_proto_and_id.2.2 "bold" (by decide) (by decide)⟩

/-- C4 counterexample: `cleanFontFamily` removes the interior apostrophe of
the family entry `a'b`, whereas stripping only the surrounding quote
characters (the claim's description) keeps it, so the claim fails on the
stack `"a'b, serif"`. -/
theorem cleanFontFamily_not_surrounding_strip :
    cleanFontFamily "a'b, serif" = "ab" ∧
    cleanFamilySpec "a'b, serif" = "a'b" ∧
    cleanFontFamily "a'b, serif" ≠ cleanFamilySpec "a'b, serif" := by
  refine ⟨rfl, rfl, ?_⟩
  decide

/-- C4 amended: `cleanFontFamily` returns the first comma-separated entry,
whitespace-trimmed, with every quote character removed wherever it occurs:
the result never contains a quote character, the function is the identity on
trimmed first entries that are quote-free, and on `'"Times New Roman", serif'`
it returns `Times New Roman`. -/
theorem cleanFontFamily_amended :
    cleanFontFamily "\"Times New Roman\", serif" = "Times New Roman" ∧
    (∀ fontFamily : String, ∀ c ∈ (cleanFontFamily fontFamily).data,
        isQuoteChar c = false) ∧
    (∀ fontFamily : String,
        ((jsTrim (firstSplitField fontFamily)).all fun c => !(isQuoteChar c)) = true →
        cleanFontFamily fontFamily = String.mk (jsTrim (firstSplitField fontFamily))) := by
  refine ⟨rfl, ?_, ?_⟩
  · intro fontFamily c hc
    simp only [cleanFontFamily, List.mem_filter, Bool.not_eq_true'] at hc
    exact hc.2
  · intro fontFamily h
    rw [List.all_eq_true] at h
    simp only [cleanFontFamily]
    rw [List.filter_eq_self.mpr h]

/-- Witness for C4's amended theorem at concrete inputs. -/
theorem cleanFontFamily_amended_witness :
    isQuoteChar 'A' = false ∧ cleanFontFamily "Arial, sans-serif" = "Arial" :=
  ⟨cleanFontFamily_amended.2.1 "Arial, sans-serif" 'A' (by decide),
   cleanFontFamily_amended.2.2 "Arial, sans-serif" (by decide)⟩

/-- C9: `hasTextContent` is true exactly when some direct child is a text
node with non-empty trimmed content; an element whose text sits only inside
a descendant element (e.g. `<div><span>hi</span></div>`) yields false. -/
theorem hasTextContent_iff_direct_text :
    (∀ el : DomNode, hasTextContent el = true ↔
        ∃ s, DomNode.text s ∈ el.childNodes ∧ 0 < s.trim.length) ∧
    hasTextContent (DomNode.element [DomNode.element [DomNode.text "hi"]]) = false := by
  constructor
  · intro el
    unfold hasTextContent
    rw [List.any_eq_true]
    constructor
    · rintro ⟨n, hn, hp⟩
      cases n with
      | text s => exact ⟨s, hn, by simpa [isNonemptyTextNode] using hp⟩
      | element cs => simp [isNonemptyTextNode] at hp
      | other => simp [isNonemptyTextNode] at hp
    · rintro ⟨s, hs, hlen⟩
      exact ⟨DomNode.text s, hs, by simpa [isNonemptyTextNode] using hlen⟩
  · rfl

theorem decodeEntities_cons_ne (c : Char) (l : List Char) (h : c ≠ '&') :
    decodeEntities (c :: l) = c :: decodeEntities l := by
  rw [decodeEntities.eq_def]
  split <;> simp_all

theorem decode_escC (c : Char) (l : List Char) :
    decodeEntities (escC c ++ l) = c :: decodeEntities l := by
  by_cases h1 : c = '&'
  · subst h1; simp [escC, decodeEntities]
  · by_cases h2 : c = '<'
    · subst h2; simp [escC, decodeEntities]
    · by_cases h3 : c = '>'
      · subst h3; simp [escC, decodeEntities]
      · simp only [escC, if_neg h1, if_neg h2, if_neg h3, List.cons_append,
          List.nil_append]
        exact decodeEntities_cons_ne c l h1

theorem decode_escapeChars (l : List Char) :
    decodeEntities (escapeChars l) = l := by
  induction l with
  | nil => rfl
  | cons c r ih => rw [escapeChars, decode_escC, ih]

theorem escC_no_tag (c : Char) : ∀ d ∈ escC c, d ≠ '<' ∧ d ≠ '>' := by
  intro d hd
  by_cases h1 : c = '&'
  · subst h1; simp [escC] at hd; rcases hd with h | h | h | h | h <;> simp [h]
  · by_cases h2 : c = '<'
    · subst h2; simp [escC] at hd; rcases hd with h | h | h | h <;> simp [h]
    · by_cases h3 : c = '>'
      · subst h3; simp [escC] at hd; rcases hd with h | h | h | h <;> simp [h]
      · simp only [escC, if_neg h1, if_neg h2, if_neg h3, List.mem_singleton] at hd
        subst hd
        exact ⟨h2, h3⟩

theorem escapeChars_no_tag (l : List Char) :
    ∀ d ∈ escapeChars l, d ≠ '<' ∧ d ≠ '>' := by
  induction l with
  | nil => simp [escapeChars]
  | cons c r ih =>
    intro d hd
    rw [escapeChars, List.mem_append] at hd
    rcases hd with hd | hd
    · exact escC_no_tag c d hd
    · exact ih d hd

theorem stripTags_append (b : Bool) (l₁ l₂ : List Char) :
    stripTags b (l₁ ++ l₂) = stripTags b l₁ ++ stripTags (stripState b l₁) l₂ := by
  induction l₁ generalizing b with
  | nil => simp [stripTags, stripState]
  | cons c r ih =>
    cases b <;> simp only [List.cons_append, stripTags, stripState] <;>
      split <;> simp [ih]

theorem tagStream_append (b : Bool) (l₁ l₂ : List Char) :
    tagStream b (l₁ ++ l₂) = tagStream b l₁ ++ tagStream (stripState b l₁) l₂ := by
  induction l₁ generalizing b with
  | nil => simp [tagStream, stripState]
  | cons c r ih =>
    cases b <;> simp only [List.cons_append, tagStream, stripState] <;>
      split <;> simp [ih]

theorem stripTags_false_of_no_lt (l : List Char) (h : ∀ c ∈ l, c ≠ '<') :
    stripTags false l = l := by
  induction l with
  | nil => rfl
  | cons c r ih =>
    rw [stripTags, if_neg (by simpa using h c (by simp)),
      ih fun d hd => h d (by simp [hd])]

theorem stripState_false_of_no_lt (l : List Char) (h : ∀ c ∈ l, c ≠ '<') :
    stripState false l = false := by
  induction l with
  | nil => rfl
  | cons c r ih =>
    rw [stripState, if_neg (by simpa using h c (by simp))]
    exact ih fun d hd => h d (by simp [hd])

theorem stripTags_true_of_no_gt (l : List Char) (h : ∀ c ∈ l, c ≠ '>') :
    stripTags true l = [] := by
  induction l with
  | nil => rfl
  | cons c r ih =>
    rw [stripTags, if_neg (by simpa using h c (by simp))]
    exact ih fun d hd => h d (by simp [hd])

theorem stripState_true_of_no_gt (l : List Char) (h : ∀ c ∈ l, c ≠ '>') :
    stripState true l = true := by
  induction l with
  | nil => rfl
  | cons c r ih =>
    rw [stripState, if_neg (by simpa using h c (by simp))]
    exact ih fun d hd => h d (by simp [hd])

theorem tagStream_false_of_no_lt (l : List Char) (h : ∀ c ∈ l, c ≠ '<') :
    tagStream false l = [] := by
  induction l with
  | nil => rfl
  | cons c r ih =>
    rw [tagStream, if_neg (by simpa using h c (by simp))]
    exact ih fun d hd => h d (by simp [hd])

theorem decode_no_amp (l : List Char) (h : ∀ c ∈ l, c ≠ '&') :
    decodeEntities l = l := by
  induction l with
  | nil => rfl
  | cons c r ih =>
    rw [decodeEntities_cons_ne c r (h c (by simp))]
    rw [ih fun d hd => h d (by simp [hd])]

/-- Escaped text round-trips: the textual content of `escapeHtml s` is `s`. -/
theorem textContent_escapeHtml (s : String) :
    textContentOf (escapeHtml s) = s := by
  have hdata : (escapeHtml s).data = escapeChars s.data := rfl
  rw [textContentOf, hdata,
    stripTags_false_of_no_lt _ (fun c hc => (escapeChars_no_tag _ c hc).1),
    decode_escapeChars]

/-- A metacharacter-free string is its own textual content. -/
theorem textContent_plain (s : String) (h : plainStyleValue s) :
    textContentOf s = s := by
  rw [textContentOf, stripTags_false_of_no_lt _ (fun c hc => (h c hc).1),
    decode_no_amp _ (fun c hc => (h c hc).2.2)]

theorem plainStyleValue_formatWeight (w : String) (h : plainStyleValue w) :
    plainStyleValue (jsValueToString (formatWeight w)) := by
  unfold formatWeight
  repeat' split
  all_goals first
    | decide
    | exact h
    | (rename_i hmem; fin_cases hmem <;> decide)

/-- Textual content of the colour cell: the swatch span contributes no text,
so only the colour value remains. -/
theorem textContent_formatColor (c : String) (h : plainStyleValue c) :
    textContentOf (formatColor c) = c := by
  have hno_gt : ∀ d ∈ c.data, d ≠ '>' := fun d hd => (h d hd).2.1
  have hno_lt : ∀ d ∈ c.data, d ≠ '<' := fun d hd => (h d hd).1
  have hdata : (formatColor c).data =
      ("<span class=\"fd-color-swatch\" style=\"background-color: ").data ++
        (c.data ++ (("\"></span>").data ++ c.data)) := by
    simp [formatColor, List.append_assoc]
  rw [textContentOf, hdata, stripTags_append]
  have h1 : stripTags false ("<span class=\"fd-color-swatch\" style=\"background-color: ").data = [] := by decide
  have h2 : stripState false ("<span class=\"fd-color-swatch\" style=\"background-color: ").data = true := by decide
  rw [h1, h2, List.nil_append, stripTags_append, stripTags_true_of_no_gt _ hno_gt,
    stripState_true_of_no_gt _ hno_gt, List.nil_append, stripTags_append]
  have h3 : stripTags true ("\"></span>").data = [] := by decide
  have h4 : stripState true ("\"></span>").data = false := by decide
  rw [h3, h4, List.nil_append, stripTags_false_of_no_lt _ hno_lt,
    decode_no_amp _ (fun d hd => (h d hd).2.2)]

/-- C5: for a record of genuine computed-style values, the rich and plain
outputs agree field for field: the textual contents of the rich header and
of the six value cells are exactly the plain payload's seven field values
(same cleaned family name, same weight label), and the plain lines are those
values behind their labels. -/
theorem rich_plain_fields_agree (p : FontProperties)
    (hsize : plainStyleValue p.fontSize) (hweight : plainStyleValue p.fontWeight)
    (hstyle : plainStyleValue p.fontStyle) (hline : plainStyleValue p.lineHeight)
    (hspace : plainStyleValue p.letterSpacing) (hcolor : plainStyleValue p.color) :
    richFieldTexts p = plainFieldValues p ∧
    plainLines p = List.zipWith (fun label v => label ++ ": " ++ v)
      ["Font", "Size", "Weight", "Style", "Line Height", "Letter Spacing", "Color"]
      (plainFieldValues p) := by
  constructor
  · simp only [richFieldTexts, richRows, plainFieldValues, List.map_cons,
      List.map_nil, List.cons.injEq, and_true]
    exact ⟨textContent_escapeHtml _, textContent_plain _ hsize,
      textContent_plain _ (plainStyleValue_formatWeight _ hweight),
      textContent_plain _ hstyle, textContent_plain _ hline,
      textContent_plain _ hspace, textContent_formatColor _ hcolor⟩
  · rfl

/-- Witness for C5 at a concrete record of computed-style values. -/
theorem rich_plain_fields_agree_witness :
    richFieldTexts
        ⟨"Arial, sans-serif", "16px", "400", "normal", "24px", "0.5px",
          "rgb(0, 0, 0)"⟩ =
      plainFieldValues
        ⟨"Arial, sans-serif", "16px", "400", "normal", "24px", "0.5px",
          "rgb(0, 0, 0)"⟩ ∧
    plainLines
        ⟨"Arial, sans-serif", "16px", "400", "normal", "24px", "0.5px",
          "rgb(0, 0, 0)"⟩ =
      List.zipWith (fun label v => label ++ ": " ++ v)
        ["Font", "Size", "Weight", "Style", "Line Height", "Letter Spacing", "Color"]
        (plainFieldValues
          ⟨"Arial, sans-serif", "16px", "400", "normal", "24px", "0.5px",
            "rgb(0, 0, 0)"⟩) :=
  rich_plain_fields_agree _ (by decide) (by decide) (by decide) (by decide)
    (by decide) (by decide)

/-- C8 counterexample: the markup skeleton of `formatFontInfo` is NOT
independent of the property values — a record whose `fontSize` carries
markup injects a `<script>` tag into the rich output, because the row values
are interpolated without `escapeHtml` (only the header's font name is
escaped). The two records below differ only in `fontSize`. -/
theorem formatFontInfo_row_value_injects_markup :
    tagStream false (formatFontInfo
        ⟨"Arial, sans-serif", "<script>alert(1)</script>", "400", "normal",
          "24px", "0.5px", "rgb(0, 0, 0)"⟩).data ≠
      tagStream false (formatFontInfo
        ⟨"Arial, sans-serif", "16px", "400", "normal",
          "24px", "0.5px", "rgb(0, 0, 0)"⟩).data ∧
    "<script>".data <:+: tagStream false (formatFontInfo
        ⟨"Arial, sans-serif", "<script>alert(1)</script>", "400", "normal",
          "24px", "0.5px", "rgb(0, 0, 0)"⟩).data := by
  constructor <;> (set_option maxRecDepth 4000 in decide)

/-- C8 amended: only the header's font-family name is escaped, so a
font-family name cannot inject markup — the markup skeleton of the rich
output does not depend on the family string — while the six row values are
interpolated unescaped (see the counterexample). -/
theorem formatFontInfo_family_cannot_inject (p : FontProperties)
    (fam1 fam2 : String) :
    tagStream false (formatFontInfo { p with fontFamily := fam1 }).data =
      tagStream false (formatFontInfo { p with fontFamily := fam2 }).data := by
  have key : ∀ fam : String,
      tagStream false (formatFontInfo { p with fontFamily := fam }).data =
        tagStream false ("\n      <div class=\"fd-header\">").data ++
          tagStream false
            (("</div>\n      <div class=\"fd-properties\">").data ++
              ((String.join ((richRows { p with fontFamily := fam }).map rowHtml)).data ++
                ("</div>\n    ").data)) := by
    intro fam
    have hdata : (formatFontInfo { p with fontFamily := fam }).data =
        ("\n      <div class=\"fd-header\">").data ++
          (escapeChars (cleanFontFamily fam).data ++
            (("</div>\n      <div class=\"fd-properties\">").data ++
              ((String.join ((richRows { p with fontFamily := fam }).map rowHtml)).data ++
                ("</div>\n    ").data))) := by
      simp [formatFontInfo, escapeHtml, List.append_assoc]
    rw [hdata, tagStream_append]
    have hstate : stripState false ("\n      <div class=\"fd-header\">").data = false := by
      decide
    rw [hstate, tagStream_append,
      tagStream_false_of_no_lt _ (fun c hc => (escapeChars_no_tag _ c hc).1),
      stripState_false_of_no_lt _ (fun c hc => (escapeChars_no_tag _ c hc).1),
      List.nil_append]
  rw [key fam1, key fam2]
  rfl

end FontDetector

namespace Tooltip

/-- C6: the computed left is `x+15` when `x+15+w ≤ W` and `x-15-w` otherwise,
clamped to a minimum of 5; symmetrically for top; both final coordinates are
at least 5. -/
theorem position_flip_and_clamp (W H w h x y : Int) :
    (position W H w h x y).1 = max 5 (if x + 15 + w ≤ W then x + 15 else x - 15 - w) ∧
    (position W H w h x y).2 = max 5 (if y + 15 + h ≤ H then y + 15 else y - 15 - h) ∧
    5 ≤ (position W H w h x y).1 ∧ 5 ≤ (position W H w h x y).2 := by
  have hx : (position W H w h x y).1 =
      max 5 (if x + 15 + w ≤ W then x + 15 else x - 15 - w) := by
    simp only [position]
    by_cases hc : x + 15 + w ≤ W
    · rw [if_neg (not_lt.mpr hc), if_pos hc]
    · rw [if_pos (lt_of_not_le hc), if_neg hc]
      congr 1
      omega
  have hy : (position W H w h x y).2 =
      max 5 (if y + 15 + h ≤ H then y + 15 else y - 15 - h) := by
    simp only [position]
    by_cases hc : y + 15 + h ≤ H
    · rw [if_neg (not_lt.mpr hc), if_pos hc]
    · rw [if_pos (lt_of_not_le hc), if_neg hc]
      congr 1
      omega
  exact ⟨hx, hy, hx ▸ le_max_left 5 _, hy ▸ le_max_left 5 _⟩

end Tooltip

namespace Coordinator

/-- Static facts about the page, as the content script's handlers consult
them: whether an element's id is `font-detector-tooltip`, whether
`FontDetector.hasTextContent` holds of it, and DOM containment
(`a.contains b`). Elements are identified by `Nat`. -/
structure Dom where
  isTooltip : Nat → Bool
  hasText : Nat → Bool
  contains : Nat → Nat → Bool

/-- The coordinator's mutable state together with the tooltip facts the
claims are about: the `isEnabled` flag, the tracked `currentElement`, the
tooltip's `visible` class, whether a disabled-feedback timer from the `q`
shortcut is pending, and the last value written through
`chrome.storage.local.set({ isEnabled: _ })`. -/
structure State where
  isEnabled : Bool
  currentElement : Option Nat
  visible : Bool
  pendingDisabled : Bool
  stored : Option Bool
  deriving DecidableEq, Repr

/-- The state right after `init`: enabled by default, nothing tracked,
tooltip created but hidden, no pending feedback, nothing written. -/
def initState : State :=
  { isEnabled := true, currentElement := none, visible := false,
    pendingDisabled := false, stored := none }

/-- A keydown event, with the fields `handleKeyDown` reads: the key string,
whether the target is an input/textarea/contentEditable surface, and whether
a ctrl/meta/alt modifier is held. -/
structure KeyEvent where
  key : String
  isInput : Bool
  hasModifier : Bool
  deriving DecidableEq, Repr

/-- JavaScript `toLowerCase()` restricted to the characters that matter for
key comparison. -/
def toLower (s : String) : String :=
  String.mk (s.data.map Char.toLower)

/-- `handleMouseOver` from the content script: gated on `isEnabled`, skips
the tooltip itself and the already-tracked element, requires
`hasTextContent`, then tracks the target and shows the tooltip. -/
def handleMouseOver (dom : Dom) (s : State) (target : Nat) : State :=
  if !s.isEnabled then s
  else if dom.isTooltip target || s.currentElement = some target then s
  else if !dom.hasText target then s
  else { s with currentElement := some target, visible := true }

/-- `handleMouseOut` from the content script: keeps the tooltip when the
pointer moves onto the tooltip itself or into a descendant of the tracked
element; otherwise clears `currentElement` and hides. A `none`
`relatedTarget` (pointer left the window) fails both guards, because
`relatedTarget && ...` is falsy and `currentElement.contains(null)` is
false. -/
def handleMouseOut (dom : Dom) (s : State) (related : Option Nat) : State :=
  if (match related with
      | some r => dom.isTooltip r
      | none => false) then s
  else if (match s.currentElement, related with
      | some c, some r => dom.contains c r
      | _, _ => false) then s
  else { s with currentElement := none, visible := false }

/-- `handleMouseMove`: only repositions the tooltip; the tracked element,
enabled flag and visibility are untouched. -/
def handleMouseMove (s : State) : State :=
  s

/-- `enable` from the content script. -/
def enable (s : State) : State :=
  { s with isEnabled := true }

/-- `disable` from the content script: clears the flag, hides the tooltip,
clears the tracked element. -/
def disable (s : State) : State :=
  { s with isEnabled := false, visible := false, currentElement := none }

/-- `toggle` from the content script. -/
def toggle (s : State) : State :=
  if s.isEnabled then disable s else enable s

/-- `saveState` from the content script:
`chrome.storage.local.set({ isEnabled: enabled })`. -/
def saveState (enabled : Bool) (s : State) : State :=
  { s with stored := some enabled }

/-- `handleKeyDown` from the content script, returning the new state and
whether `event.preventDefault()` was called. All shortcuts require the
extension enabled, the tooltip visible, a non-input target and no modifier;
`c` and `a` copy (leaving the modelled state unchanged), `q` prevents the
default, starts the disabled feedback (scheduling its completion timer), and
any other key does nothing. -/
def handleKeyDown (s : State) (ev : KeyEvent) : State × Bool :=
  if !s.isEnabled then (s, false)
  else if !s.visible then (s, false)
  else if ev.isInput then (s, false)
  else if ev.hasModifier then (s, false)
  else if toLower ev.key = "c" then (s, true)
  else if toLower ev.key = "a" then (s, true)
  else if toLower ev.key = "q" then ({ s with pendingDisabled := true }, true)
  else (s, false)

/-- The completion of `Tooltip.showDisabledFeedback`'s 1200ms timer: it
hides the tooltip and runs the callback passed by `handleKeyDown`'s `q`
branch, which calls `disable()` and `saveState(false)`. -/
def disabledTimerFire (s : State) : State :=
  if s.pendingDisabled then
    saveState false (disable { s with visible := false, pendingDisabled := false })
  else s

/-- The events the coordinator reacts to: the four document listeners, the
disabled-feedback timer completion, and the control surface used by the
popup message listener and the storage change listener. -/
inductive Event where
  | mouseOver (target : Nat)
  | mouseOut (related : Option Nat)
  | mouseMove
  | keyDown (ev : KeyEvent)
  | timerDisabled
  | enableCmd
  | disableCmd
  | toggleCmd

/-- One step of the coordinator: dispatch an event to its handler. -/
def step (dom : Dom) (s : State) : Event → State
  | .mouseOver target => handleMouseOver dom s target
  | .mouseOut related => handleMouseOut dom s related
  | .mouseMove => handleMouseMove s
  | .keyDown ev => (handleKeyDown s ev).1
  | .timerDisabled => disabledTimerFire s
  | .enableCmd => enable s
  | .disableCmd => disable s
  | .toggleCmd => toggle s

/-- States reachable from `initState` through the event handlers and
control operations. -/
inductive Reachable (dom : Dom) : State → Prop
  | init : Reachable dom initState
  | next (s : State) (e : Event) : Reachable dom s → Reachable dom (step dom s e)

/-- The inductive invariant: the tooltip is visible exactly when an element
is tracked and the extension is enabled, and an element is only ever tracked
while enabled. -/
def Inv (s : State) : Prop :=
  (s.visible = true ↔ s.currentElement.isSome = true ∧ s.isEnabled = true) ∧
  (s.currentElement.isSome = true → s.isEnabled = true)

theorem inv_init : Inv initState := by
  constructor <;> simp [initState]

theorem inv_step (dom : Dom) (s : State) (e : Event) (h : Inv s) :
    Inv (step dom s e) := by
  obtain ⟨hvis, htrack⟩ := h
  cases e with
  | mouseOver target =>
    simp only [step, handleMouseOver]
    split
    · exact ⟨hvis, htrack⟩
    · split
      · exact ⟨hvis, htrack⟩
      · split
        · exact ⟨hvis, htrack⟩
        · rename_i hen _ _
          simp only [Bool.not_eq_true'] at hen
          constructor <;> simp [hen]
  | mouseOut related =>
    simp only [step, handleMouseOut]
    split
    · exact ⟨hvis, htrack⟩
    · split
      · exact ⟨hvis, htrack⟩
      · constructor <;> simp
  | mouseMove => exact ⟨hvis, htrack⟩
  | keyDown ev =>
    simp only [step, handleKeyDown]
    split
    · exact ⟨hvis, htrack⟩
    · split
      · exact ⟨hvis, htrack⟩
      · split
        · exact ⟨hvis, htrack⟩
        · split
          · exact ⟨hvis, htrack⟩
          · split
            · exact ⟨hvis, htrack⟩
            · split
              · exact ⟨hvis, htrack⟩
              · split
                · exact ⟨hvis, htrack⟩
                · exact ⟨hvis, htrack⟩
  | timerDisabled =>
    simp only [step, disabledTimerFire]
    split
    · constructor <;> simp [saveState, disable]
    · exact ⟨hvis, htrack⟩
  | enableCmd =>
    simp only [step, enable]
    by_cases hen : s.isEnabled = true
    · constructor
      · simpa [hen] using hvis
      · simp
    · have hcur : s.currentElement.isSome = false := by
        rcases Bool.eq_false_or_eq_true s.currentElement.isSome with h | h
        · exact absurd (htrack h) hen
        · exact h
      have hv : s.visible = false := by
        rcases Bool.eq_false_or_eq_true s.visible with h | h
        · exact absurd (hvis.mp h).2 hen
        · exact h
      constructor <;> simp [hv, hcur]
  | disableCmd =>
    simp only [step, disable]
    constructor <;> simp
  | toggleCmd =>
    simp only [step, toggle]
    split
    · simp only [disable]
      constructor <;> simp
    · rename_i hen
      simp only [Bool.not_eq_true] at hen
      have hcur : s.currentElement.isSome = false := by
        rcases Bool.eq_false_or_eq_true s.currentElement.isSome with h | h
        · exact absurd (htrack h) (by simp [hen])
        · exact h
      have hv : s.visible = false := by
        rcases Bool.eq_false_or_eq_true s.visible with h | h
        · exact absurd (hvis.mp h).2 (by simp [hen])
        · exact h
      simp only [enable]
      constructor <;> simp [hv, hcur]

theorem inv_reachable (dom : Dom) (s : State) (h : Reachable dom s) : Inv s := by
  induction h with
  | init => exact inv_init
  | next s e _ ih => exact inv_step dom s e ih

/-- C1: in every state reachable through the coordinator's event handlers
and control operations, the tooltip is visible iff an element is tracked and
the extension is enabled. -/
theorem visible_iff_tracked_and_enabled (dom : Dom) (s : State)
    (h : Reachable dom s) :
    s.visible = true ↔ s.currentElement.isSome = true ∧ s.isEnabled = true :=
  (inv_reachable dom s h).1

/-- Witness for C1: the invariant instantiated at the initial state of a
one-element page. -/
theorem visible_iff_tracked_and_enabled_witness :
    initState.visible = true ↔
      initState.currentElement.isSome = true ∧ initState.isEnabled = true :=
  visible_iff_tracked_and_enabled
    ⟨fun _ => false, fun _ => true, fun _ _ => false⟩ initState Reachable.init

/-- C2: with the extension enabled, the tooltip visible, a non-input target
and no modifier, a `q` keydown calls `preventDefault`, starts the disabled
feedback, and when the feedback's 1200ms completion fires, the tooltip is
hidden, `isEnabled()` is false, and `{isEnabled: false}` has been written to
storage. -/
theorem keydown_q_disables (s : State) (ev : KeyEvent)
    (hen : s.isEnabled = true) (hvis : s.visible = true)
    (hinput : ev.isInput = false) (hmod : ev.hasModifier = false)
    (hkey : toLower ev.key = "q") :
    (handleKeyDown s ev).2 = true ∧
    (handleKeyDown s ev).1.pendingDisabled = true ∧
    (disabledTimerFire (handleKeyDown s ev).1).visible = false ∧
    (disabledTimerFire (handleKeyDown s ev).1).isEnabled = false ∧
    (disabledTimerFire (handleKeyDown s ev).1).stored = some false := by
  have hq : handleKeyDown s ev = ({ s with pendingDisabled := true }, true) := by
    simp [handleKeyDown, hen, hvis, hinput, hmod, hkey]
  rw [hq]
  simp [disabledTimerFire, saveState, disable]

/-- Witness for C2: the `q` shortcut run from a concrete visible state. -/
theorem keydown_q_disables_witness :
    (handleKeyDown
        { isEnabled := true, currentElement := some 0, visible := true,
          pendingDisabled := false, stored := none }
        { key := "q", isInput := false, hasModifier := false }).2 = true ∧
    (handleKeyDown
        { isEnabled := true, currentElement := some 0, visible := true,
          pendingDisabled := false, stored := none }
        { key := "q", isInput := false, hasModifier := false }).1.pendingDisabled = true ∧
    (disabledTimerFire (handleKeyDown
        { isEnabled := true, currentElement := some 0, visible := true,
          pendingDisabled := false, stored := none }
        { key := "q", isInput := false, hasModifier := false }).1).visible = false ∧
    (disabledTimerFire (handleKeyDown
        { isEnabled := true, currentElement := some 0, visible := true,
          pendingDisabled := false, stored := none }
        { key := "q", isInput := false, hasModifier := false }).1).isEnabled = false ∧
    (disabledTimerFire (handleKeyDown
        { isEnabled := true, currentElement := some 0, visible := true,
          pendingDisabled := false, stored := none }
        { key := "q", isInput := false, hasModifier := false }).1).stored = some false :=
  keydown_q_disables _ _ rfl rfl rfl rfl rfl

/-- C10: a mouseout whose `relatedTarget` is absent always clears the
tracked element and hides the tooltip, in every state and on every page —
the containment check never keeps the tooltip shown for a `null`
`relatedTarget`. -/
theorem mouseOut_no_related_hides (dom : Dom) (s : State) :
    handleMouseOut dom s none =
      { s with currentElement := none, visible := false } := by
  cases hc : s.currentElement <;> simp [handleMouseOut, hc]

end Coordinator

namespace Clipboard

/-- Outcome of `document.execCommand('copy')`: a boolean result, or a thrown
exception. -/
inductive ExecResult where
  | ok (success : Bool)
  | throws
  deriving DecidableEq, Repr

/-- The environment a `Clipboard.copy` call runs against: whether the
promise of `navigator.clipboard.writeText` resolves, and how
`document.execCommand('copy')` behaves. -/
structure ClipEnv where
  writeTextOk : Bool
  execCommand : ExecResult
  deriving DecidableEq, Repr

/-- `navigator.clipboard.writeText`, modelled in an exception monad:
the awaited promise either resolves or rejects. -/
def writeText (env : ClipEnv) : Except Unit Unit :=
  if env.writeTextOk then .ok () else .error ()

/-- `document.execCommand('copy')`: returns its boolean or throws. -/
def execCommandCopy (env : ClipEnv) : Except Unit Bool :=
  match env.execCommand with
  | .ok b => .ok b
  | .throws => .error ()

/-- A JavaScript `try { body } catch (err) { handler }`. -/
def jsTry {α : Type} (body : Except Unit α) (handler : Unit → Except Unit α) :
    Except Unit α :=
  match body with
  | .ok a => .ok a
  | .error e => handler e

/-- `fallbackCopy` from `src/clipboard.js`, returning
`(result, textareaAppends, textareaRemoves)`: the temporary textarea is
appended once before the `try`, and `removeChild` runs both in the `try`
branch (before returning `execCommand`'s result) and in the `catch` branch
(before returning false). -/
def fallbackCopy (env : ClipEnv) : Except Unit (Bool × Nat × Nat) :=
  -- document.body.appendChild(textArea): one append
  jsTry
    (do
      let success ← execCommandCopy env
      -- document.body.removeChild(textArea); return success
      pure (success, 1, 1))
    (fun _ =>
      -- catch: document.body.removeChild(textArea); return false
      pure (false, 1, 1))

/-- `copy` from `src/clipboard.js`: try the asynchronous clipboard write and
fall back to `fallbackCopy` on any failure. The success path never creates a
textarea (`(true, 0, 0)`). -/
def copy (env : ClipEnv) : Except Unit (Bool × Nat × Nat) :=
  jsTry
    (do
      let _ ← writeText env
      pure (true, 0, 0))
    (fun _ => fallbackCopy env)

/-- C7: `copy` never throws; it reports `false` exactly when both the
primary write and the fallback fail; and on every path the fallback's
temporary textarea is removed as often as it is appended within the call. -/
theorem copy_total_false_iff_both_fail (env : ClipEnv) :
    (copy env).isOk = true ∧
    (copy env = Except.ok (false, 1, 1) ↔
      env.writeTextOk = false ∧
        (env.execCommand = .throws ∨ env.execCommand = .ok false)) ∧
    (∀ b appends removes, copy env = Except.ok (b, appends, removes) →
        appends = removes) := by
  obtain ⟨wt, ex⟩ := env
  refine ⟨?_, ?_, ?_⟩
  · cases wt <;> cases ex <;> rfl
  · cases wt <;> rcases ex with ⟨_ | _⟩ | _ <;>
      simp [copy, jsTry, writeText, fallbackCopy, execCommandCopy,
        bind, Except.bind, pure, Except.pure]
  · intro b appends removes h
    cases wt <;> rcases ex with ⟨_ | _⟩ | _ <;>
      · simp only [copy, jsTry, writeText, fallbackCopy, execCommandCopy,
          bind, Except.bind, pure, Except.pure, Bool.false_eq_true, if_false,
          if_true, Except.ok.injEq, Prod.mk.injEq] at h
        omega

/-- Witness for C7 at a concrete environment where the primary write fails
and `execCommand` throws: the call still succeeds, and the removal-balance
conjunct is applied to its concrete result. -/
theorem copy_total_false_iff_both_fail_witness :
    (copy (ClipEnv.mk false ExecResult.throws)).isOk = true ∧ (1 : Nat) = 1 :=
  ⟨(copy_total_false_iff_both_fail (ClipEnv.mk false ExecResult.throws)).1,
   (copy_total_false_iff_both_fail (ClipEnv.mk false ExecResult.throws)).2.2
     false 1 1 rfl⟩

end Clipboard
